import Mathlib

/-
Verification of the CPU-and-bus core (register file, instruction schema,
memory bus) of a Game Boy emulator, as a shallow embedding of the three
source files `register.rs`, `instruction.rs`, and `memory_map.rs`.
Machine integers are modelled as `Nat` with explicit wrapping where the
source wraps; Rust panics are modelled as `none`.
-/

namespace Feboy

/-- The byte-register identifier enumeration from `register.rs`. -/
inductive RegisterId
  | A | B | C | D | E | H | L
deriving DecidableEq, Repr

/-- A byte register: an 8-bit value tagged with its identifier. -/
structure ByteRegister where
  value : Nat
  id : RegisterId
deriving DecidableEq, Repr

/-- The four flag booleans of `FlagRegister`. -/
structure FlagRegister where
  z : Bool
  n : Bool
  h : Bool
  c : Bool
deriving DecidableEq, Repr

/-- The `WordRegister` tagged variant from `register.rs`. -/
inductive WordRegister
  | Double (hi lo : ByteRegister)
  | AccFlag (a : ByteRegister) (f : FlagRegister)
  | StackPointer (n : Nat)
  | ProgramCounter (n : Nat)
deriving DecidableEq, Repr

/-- `u16::from_le_bytes([lo, hi])` on byte values. -/
def u16_from_le_bytes (lo hi : Nat) : Nat := lo + (hi <<< 8)

/-- The `bit_flag` closure inside `WordRegister::value`:
`2u8.pow(v) as u8 * if b then 1 else 0`. -/
def bit_flag (b : Bool) (v : Nat) : Nat := (2 ^ v % 256) * (if b then 1 else 0)

/-- `WordRegister::value`: the 16-bit reading of a word register. In the
`AccFlag` arm the source shifts z, n, h, c to bit positions 3, 2, 1, 0 of
the low byte. -/
def WordRegister.value : WordRegister → Nat
  | .Double h l => u16_from_le_bytes l.value h.value
  | .AccFlag a f =>
      u16_from_le_bytes
        (bit_flag f.z 3 + bit_flag f.n 2 + bit_flag f.h 1 + bit_flag f.c 0)
        a.value
  | .StackPointer n => n
  | .ProgramCounter n => n

/-- The register file `Register` from `register.rs`: the array of seven
byte registers (indexed by identifier, as the `Index` impl does), the flag
register, and the two free-standing word slots. -/
structure Register where
  registers : RegisterId → ByteRegister
  flags : FlagRegister
  sp : WordRegister
  pc : WordRegister

/-- `Register::new`: the post-boot reset state. -/
def Register.new : Register :=
  { registers := fun id =>
      match id with
      | .A => ⟨0x01, .A⟩
      | .B => ⟨0x00, .B⟩
      | .C => ⟨0x13, .C⟩
      | .D => ⟨0x00, .D⟩
      | .E => ⟨0xD8, .E⟩
      | .H => ⟨0x01, .H⟩
      | .L => ⟨0x4D, .L⟩
    pc := .ProgramCounter 0x0100
    sp := .StackPointer 0xFFFE
    flags := ⟨true, false, true, true⟩ }

/-- The `Index<RegisterId>` impl: `self[id]`. -/
def Register.get (r : Register) (id : RegisterId) : ByteRegister := r.registers id

/-- `self[id].value = v` through the `IndexMut<RegisterId>` impl. -/
def Register.setValue (r : Register) (id : RegisterId) (v : Nat) : Register :=
  { r with registers := fun j =>
      if j = id then { r.registers id with value := v } else r.registers j }

/-- `Register::af`. -/
def Register.af (r : Register) : WordRegister := .AccFlag (r.get .A) r.flags

/-- `Register::bc`. -/
def Register.bc (r : Register) : WordRegister := .Double (r.get .B) (r.get .C)

/-- `Register::de`. -/
def Register.de (r : Register) : WordRegister := .Double (r.get .D) (r.get .E)

/-- `Register::hl`. -/
def Register.hl (r : Register) : WordRegister := .Double (r.get .H) (r.get .L)

/-- `FlagRegister::value`: packs the list [c, h, n, z] at bit positions
4, 5, 6, 7 respectively. -/
def FlagRegister.value (f : FlagRegister) : Nat :=
  ((if f.c then 1 else 0) <<< 4) + ((if f.h then 1 else 0) <<< 5)
    + ((if f.n then 1 else 0) <<< 6) + ((if f.z then 1 else 0) <<< 7)

/-- `FlagRegister::set`: unpacks z, n, h, c from bits 7, 6, 5, 4. -/
def FlagRegister.set (_f : FlagRegister) (v : Nat) : FlagRegister :=
  { z := (0x80 &&& v) != 0
    n := (0x40 &&& v) != 0
    h := (0x20 &&& v) != 0
    c := (0x10 &&& v) != 0 }

/-- `Register::set_flag`: masks the low nibble away, then unpacks z from
bit 7, n from bit 6, c from bit 5 and h from bit 4 (note that the c and h
positions are the reverse of `FlagRegister::set`). -/
def Register.set_flag (r : Register) (flag : Nat) : Register :=
  let flags := flag &&& 0xF0
  { r with flags :=
      { z := (flags &&& 0x80) == 0x80
        n := (flags &&& 0x40) == 0x40
        c := (flags &&& 0x20) == 0x20
        h := (flags &&& 0x10) == 0x10 } }

/-- `Register::set_flags`. -/
def Register.set_flags (r : Register) (z n h c : Bool) : Register :=
  { r with flags := ⟨z, n, h, c⟩ }

/-- The condition-code enumeration. -/
inductive ConditionCode
  | Z | NZ | C | NC
deriving DecidableEq, Repr

/-- `Register::cc_flag`. -/
def Register.cc_flag (r : Register) (cc : ConditionCode) : Bool :=
  match cc with
  | .Z => r.flags.z
  | .NZ => !r.flags.z
  | .C => r.flags.c
  | .NC => !r.flags.c

/-- `Register::set_word_register_with_callback`. The bus type is kept
abstract because the function only hands it to the callback (in the source
the callback is an `fn(&mut MemoryMap)`); `value.to_le_bytes()` on a `u16`
gives `[value % 256, value / 256 % 256]`. -/
def Register.set_word_register_with_callback {M : Type} (r : Register) (value : Nat)
    (reg : WordRegister) (callback : M → M) (mem : M) : Register × M :=
  let lo := value % 256
  let hi := value / 256 % 256
  match reg with
  | .AccFlag _ _ =>
      let r1 := r.set_flag lo
      let mem1 := callback mem
      (r1.setValue .A hi, mem1)
  | .Double a b =>
      let r1 := r.setValue b.id lo
      let mem1 := callback mem
      (r1.setValue a.id hi, mem1)
  | .StackPointer _ =>
      ({ r with sp := .StackPointer value }, callback mem)
  | .ProgramCounter _ =>
      ({ r with pc := .StackPointer value }, callback mem)

/-- `Register::set_word_register`: the callback-free form, passing a no-op
callback. -/
def Register.set_word_register {M : Type} (r : Register) (value : Nat)
    (reg : WordRegister) (mem : M) : Register × M :=
  r.set_word_register_with_callback value reg (fun m => m) mem

/-- The `Bit(pub u8)` newtype. -/
structure Bit where
  v : Nat
deriving DecidableEq, Repr

/-- The restart-vector enumeration. -/
inductive RstVec
  | X00 | X08 | X10 | X18 | X20 | X28 | X30 | X38
deriving DecidableEq, Repr

/-- `InstructionOperand` from `instruction.rs`. -/
inductive InstructionOperand
  | OpRegister (id : RegisterId)
  | OpByte (n : Nat)
  | OpHL
deriving DecidableEq, Repr

/-- The `Command` tagged variant from `instruction.rs`; `i8` immediates are
modelled as `Int`, `u8`/`u16` immediates as `Nat`. -/
inductive Command
  | ADC_A (n : InstructionOperand)
  | ADD_A (n : InstructionOperand)
  | ADD_HL_R16 (r : WordRegister)
  | ADD_SP_I8 (i : Int)
  | AND_A (n : InstructionOperand)
  | BIT_U3 (b : Bit) (op : InstructionOperand)
  | CALL_CC_U16 (cc : ConditionCode) (u : Nat)
  | CALL_U16 (u : Nat)
  | CCF
  | CPL
  | CP_A (n : InstructionOperand)
  | DAA
  | DECH_HL
  | DEC_R16 (r : WordRegister)
  | DEC_R8 (r : RegisterId)
  | DI
  | EI
  | HALT
  | INCH_HL
  | INC_R16 (r : WordRegister)
  | INC_R8 (r : RegisterId)
  | JP_CC_U16 (cc : ConditionCode) (u : Nat)
  | JP_HL
  | JP_U16 (u : Nat)
  | JR_CC_I8 (cc : ConditionCode) (i : Int)
  | JR_I8 (i : Int)
  | LDH_A_C
  | LDH_A_U16 (u : Nat)
  | LDH_A_U8 (u : Nat)
  | LDH_C_A
  | LDH_HL_U8 (u : Nat)
  | LDH_U16_A (u : Nat)
  | LDH_U8_A (u : Nat)
  | LD_A_HLD
  | LD_A_HLI
  | LD_A_R16 (r : WordRegister)
  | LD_A_U8 (u : Nat)
  | LD_HLD_A
  | LD_HLI_A
  | LD_HL_R8 (r : RegisterId)
  | LD_HL_SP_I8 (i : Int)
  | LD_R16_A (r : WordRegister)
  | LD_R16_U16 (r : WordRegister) (u : Nat)
  | LD_R8_HL (r : RegisterId)
  | LD_R8_R8 (a b : RegisterId)
  | LD_R8_U8 (r : RegisterId) (u : Nat)
  | LD_SP_HL
  | LD_U16_SP (u : Nat)
  | NOP
  | OR_A (n : InstructionOperand)
  | POP_R16 (r : WordRegister)
  | PUSH_AF
  | PUSH_R16 (r : WordRegister)
  | RES_U3_HL (b : Bit)
  | RES_U3_R8 (b : Bit) (r : RegisterId)
  | RET
  | RETI
  | RET_CC (cc : ConditionCode)
  | RL (op : InstructionOperand) (small : Bool)
  | RLC (op : InstructionOperand) (small : Bool)
  | RR (op : InstructionOperand) (small : Bool)
  | RRC (op : InstructionOperand) (small : Bool)
  | RST (v : RstVec)
  | SBC_A (n : InstructionOperand)
  | SCF
  | SET_U3_HL (b : Bit)
  | SET_U3_R8 (b : Bit) (r : RegisterId)
  | SLA (op : InstructionOperand)
  | SRA (op : InstructionOperand)
  | SRL (op : InstructionOperand)
  | STOP
  | SUB_A (n : InstructionOperand)
  | SWAP_HL
  | SWAP_R8 (r : RegisterId)
  | XOR_A (n : InstructionOperand)

/-- The `Instruction(raw_opcode, command)` pair. -/
structure Instruction where
  opcode : Nat
  command : Command

/-- `Command::size`; the source panic in the rotate arm is modelled as
`none`. -/
def Command.size : Command → Option Nat
  | .ADC_A n | .ADD_A n | .AND_A n | .CP_A n | .OR_A n | .SBC_A n | .SUB_A n
  | .XOR_A n =>
      match n with
      | .OpRegister _ | .OpHL => some 1
      | .OpByte _ => some 2
  | .RL op small | .RLC op small | .RR op small | .RRC op small =>
      match op, small with
      | .OpRegister .A, true => some 1
      | _, false => some 2
      | _, true => none
  | .LD_A_U8 _ | .BIT_U3 _ _ | .RES_U3_R8 _ _ | .RES_U3_HL _ | .SET_U3_R8 _ _
  | .SET_U3_HL _ | .SWAP_R8 _ | .SWAP_HL | .SLA _ | .SRA _ | .SRL _
  | .LD_R8_U8 _ _ | .JR_I8 _ | .JR_CC_I8 _ _ | .LDH_A_U8 _ | .LDH_U8_A _
  | .ADD_SP_I8 _ | .LD_HL_SP_I8 _ | .LDH_HL_U8 _ => some 2
  | .LDH_U16_A _ | .LDH_A_U16 _ | .LD_R16_U16 _ _ | .CALL_U16 _
  | .CALL_CC_U16 _ _ | .JP_U16 _ | .JP_CC_U16 _ _ | .LD_U16_SP _ => some 3
  | _ => some 1

/-- `Command::cycles`; the source panics are modelled as `none`. -/
def Command.cycles (c : Command) (branch : Bool) : Option Nat :=
  match c with
  | .ADD_A n | .SUB_A n | .SBC_A n | .AND_A n | .XOR_A n | .OR_A n | .CP_A n
  | .ADC_A n =>
      match n with
      | .OpRegister _ => some 1
      | .OpByte _ | .OpHL => some 2
  | .BIT_U3 _ op =>
      match op with
      | .OpRegister _ => some 2
      | .OpHL => some 3
      | .OpByte _ => none
  | .DAA | .CPL | .SCF | .CCF | .HALT | .DI | .EI | .JP_HL | .INC_R8 _
  | .DEC_R8 _ | .LD_R8_R8 _ _ | .NOP | .STOP => some 1
  | .SLA op | .SRA op | .SRL op =>
      match op with
      | .OpRegister _ => some 2
      | .OpHL => some 4
      | .OpByte _ => none
  | .RL op small | .RLC op small | .RR op small | .RRC op small =>
      match op, small with
      | .OpRegister .A, true => some 1
      | .OpRegister _, false => some 2
      | .OpHL, false => some 4
      | _, _ => none
  | .INC_R16 _ | .LD_SP_HL | .LD_R8_U8 _ _ | .LD_HL_R8 _ | .LD_A_U8 _
  | .ADD_HL_R16 _ | .LD_A_R16 _ | .DEC_R16 _ | .LDH_C_A | .LDH_A_C
  | .LD_R8_HL _ | .LD_R16_A _ | .LD_A_HLD | .LD_A_HLI | .LD_HLD_A
  | .LD_HLI_A | .SWAP_R8 _ | .SET_U3_R8 _ _ | .RES_U3_R8 _ _ => some 2
  | .POP_R16 _ | .JR_I8 _ | .LDH_U8_A _ | .DECH_HL | .INCH_HL | .LDH_HL_U8 _
  | .LD_HL_SP_I8 _ | .LDH_A_U8 _ | .LD_R16_U16 _ _ => some 3
  | .LDH_U16_A _ | .PUSH_AF | .RETI | .RET | .JP_U16 _ | .PUSH_R16 _
  | .ADD_SP_I8 _ | .RST _ | .LDH_A_U16 _ | .SWAP_HL | .RES_U3_HL _
  | .SET_U3_HL _ => some 4
  | .LD_U16_SP _ => some 5
  | .CALL_U16 _ => some 6
  | .JR_CC_I8 _ _ => if branch then some 3 else some 2
  | .JP_CC_U16 _ _ => if branch then some 4 else some 3
  | .RET_CC _ => if branch then some 5 else some 2
  | .CALL_CC_U16 _ _ => if branch then some 6 else some 3

/-- Modelled from the spec: the DMA engine state held by the PPU (the `ppu`
module is outside the given sources). Per section 4.4 a transfer is
Inactive, Starting (initiated during the just-completed machine cycle), or
Active. -/
inductive DmaState
  | Inactive | Starting | Active
deriving DecidableEq, Repr

/-- Modelled from the spec: the PPU mode; the bus only inspects VBlank. -/
inductive PpuMode
  | HBlank | VBlank | OamSearch | PixelTransfer
deriving DecidableEq, Repr

/-- Modelled from the spec: the PPU state-change payload; the bus only
inspects `ModeChange` transitions. -/
inductive PpuState
  | ModeChange (f t : PpuMode)
  | NoChange
deriving DecidableEq, Repr

/-- Modelled from the spec: the result of a PPU machine cycle, `Normal` or
`StatTrigger`, each carrying a state change (section 4.4). -/
inductive RenderCycle
  | Normal (s : PpuState)
  | StatTrigger (s : PpuState)
deriving DecidableEq, Repr

/-- Modelled from the spec: the four interrupt sources raised by the bus. -/
inductive InterruptId
  | VBlankInt | StatInt | TimerInt | JoypadInt
deriving DecidableEq, Repr

/-- The PPU fields that `memory_map.rs` reads or writes directly
(`ppu.dma`, `ppu.dma_progress`, `ppu.dma_offset`, `ppu.oam`); every other
part of the PPU state is kept abstract in `rest`. -/
structure PPU (π : Type) where
  dma : DmaState
  dma_progress : Nat
  dma_offset : Nat
  oam : List Nat
  rest : π
deriving DecidableEq, Repr

/-- Modelled from the spec: the uniform subsystem interface of section 4.6,
taken as parameters. A subsystem read returns `some` exactly when it owns
the address; a write returns the updated subsystem and whether it claimed
the address; a machine cycle returns the updated subsystem and its event
(the timer reports `some` on TIMA overflow, the joypad one event per
falling edge). -/
structure Env (π τ ι ω : Type) where
  ppuRead : PPU π → Nat → Option Nat
  intRead : ι → Nat → Option Nat
  timerRead : τ → Nat → Option Nat
  joyRead : ω → Nat → Option Nat
  ppuWrite : PPU π → Nat → Nat → PPU π × Bool
  timerWrite : τ → Nat → Nat → τ × Bool
  intWrite : ι → Nat → Nat → ι × Bool
  joyWrite : ω → Nat → Nat → ω × Bool
  ppuMC : PPU π → PPU π × RenderCycle
  timerMC : τ → τ × Option Unit
  joyMC : ω → PPU π → ω × List Unit
  intSet : ι → List InterruptId → Bool → ι

/-- The `MemoryMap` state from `memory_map.rs`: the flat backing array, the
four subsystems, the ROM size and name, the wrapping 16-bit machine-cycle
counter, and the internal DMA progress counter. -/
structure MemoryMap (π τ ι ω : Type) where
  memory : List Nat
  interrupt_handler : ι
  ppu : PPU π
  timer : τ
  joypad : ω
  rom_size : Nat
  rom_name : String
  cycles : Nat
  dma_progress : Nat

variable {π τ ι ω : Type}

/-- The address translation applied when the address is supplied as an
8-bit high-page offset (the `TypeId` branch of the source): add 0xFF00.
The operations below take the already-translated 16-bit address. -/
def translate_high (address : Nat) : Nat := address + 0xFF00

/-- `MemoryMap::read_without_cycle`: try the PPU, then the interrupt
controller, then the timer, then the joypad; if none claims the address,
read the flat backing array. -/
def MemoryMap.read_without_cycle (env : Env π τ ι ω) (m : MemoryMap π τ ι ω)
    (address : Nat) : Nat :=
  ((((env.ppuRead m.ppu address).or
      (env.intRead m.interrupt_handler address)).or
      (env.timerRead m.timer address)).or
      (env.joyRead m.joypad address)).getD (m.memory.getD address 0)

/-- `MemoryMap::write_without_cycle`: offer the write to the PPU, then the
timer, then the interrupt controller, then the joypad, short-circuiting at
the first subsystem that claims it (the `||` chain); only when none claims
it and the address is at or above `rom_size` is the flat array stored. -/
def MemoryMap.write_without_cycle (env : Env π τ ι ω) (m : MemoryMap π τ ι ω)
    (address value : Nat) : MemoryMap π τ ι ω :=
  let pw := env.ppuWrite m.ppu address value
  let m1 := { m with ppu := pw.1 }
  if pw.2 then m1 else
    let tw := env.timerWrite m1.timer address value
    let m2 := { m1 with timer := tw.1 }
    if tw.2 then m2 else
      let iw := env.intWrite m2.interrupt_handler address value
      let m3 := { m2 with interrupt_handler := iw.1 }
      if iw.2 then m3 else
        let jw := env.joyWrite m3.joypad address value
        let m4 := { m3 with joypad := jw.1 }
        if jw.2 then m4 else
          if m4.rom_size ≤ address then
            { m4 with memory := m4.memory.set address value }
          else m4

/-- The `while` loop of `MemoryMap::dma_transfer`: while the internal
progress counter is below the PPU's reported position, copy one byte from
`dma_offset * 0x100 + progress` into OAM slot `progress` through the
no-tick read path. -/
def MemoryMap.dma_loop (env : Env π τ ι ω) (m : MemoryMap π τ ι ω) :
    MemoryMap π τ ι ω :=
  if h : m.dma_progress < m.ppu.dma_progress then
    let b := m.read_without_cycle env (m.ppu.dma_offset * 0x100 + m.dma_progress)
    MemoryMap.dma_loop env
      { m with ppu := { m.ppu with oam := m.ppu.oam.set m.dma_progress b }
               dma_progress := m.dma_progress + 1 }
  else m
termination_by m.ppu.dma_progress - m.dma_progress
decreasing_by omega

/-- `MemoryMap::dma_transfer`: do nothing while the DMA state is Inactive
or Starting; otherwise run the copy loop and reset the progress counter to
0 once it has reached the OAM size. -/
def MemoryMap.dma_transfer (env : Env π τ ι ω) (m : MemoryMap π τ ι ω) :
    MemoryMap π τ ι ω :=
  match m.ppu.dma with
  | .Inactive | .Starting => m
  | .Active =>
      if (m.dma_loop env).dma_progress = (m.dma_loop env).ppu.oam.length then
        { m.dma_loop env with dma_progress := 0 }
      else m.dma_loop env

/-- `MemoryMap::machine_cycle`: advance the PPU, the timer and the joypad
one machine cycle, collect the interrupts they raise, and hand them to the
interrupt controller. -/
def MemoryMap.machine_cycle (env : Env π τ ι ω) (m : MemoryMap π τ ι ω) :
    MemoryMap π τ ι ω :=
  let pr := env.ppuMC m.ppu
  let ppuInts : List InterruptId :=
    match pr.2 with
    | .StatTrigger (.ModeChange _ .VBlank) => [.VBlankInt, .StatInt]
    | .Normal (.ModeChange _ .VBlank) => [.VBlankInt]
    | .StatTrigger _ => [.StatInt]
    | _ => []
  let tr := env.timerMC m.timer
  let timerInts : List InterruptId :=
    match tr.2 with
    | some _ => [.TimerInt]
    | none => []
  let jr := env.joyMC m.joypad pr.1
  let joyInts : List InterruptId := jr.2.map fun _ => .JoypadInt
  { m with ppu := pr.1
           timer := tr.1
           joypad := jr.1
           interrupt_handler :=
             env.intSet m.interrupt_handler (ppuInts ++ timerInts ++ joyInts) true }

/-- `MemoryMap::cycle`: increment the 16-bit cycle counter (wrapping `u16`
addition), run the DMA transfer step, then the machine-cycle step. -/
def MemoryMap.cycle (env : Env π τ ι ω) (m : MemoryMap π τ ι ω) :
    MemoryMap π τ ι ω :=
  (({ m with cycles := (m.cycles + 1) % 65536 }).dma_transfer env).machine_cycle env

/-- `MemoryMap::read`: read through the dispatch chain, then tick one
machine cycle; returns the value and the post-tick state. -/
def MemoryMap.read (env : Env π τ ι ω) (m : MemoryMap π τ ι ω)
    (address : Nat) : Nat × MemoryMap π τ ι ω :=
  (m.read_without_cycle env address, m.cycle env)

/-- `MemoryMap::write`: write through the dispatch chain, then tick one
machine cycle. -/
def MemoryMap.write (env : Env π τ ι ω) (m : MemoryMap π τ ι ω)
    (address value : Nat) : MemoryMap π τ ι ω :=
  (m.write_without_cycle env address value).cycle env

/-- A sequence of ticking bus accesses, used to state the cycle-counter
accounting property. -/
inductive BusOp
  | busRead (address : Nat)
  | busWrite (address value : Nat)
deriving DecidableEq, Repr

/-- Apply a list of ticking bus accesses in order. -/
def MemoryMap.applyOps (env : Env π τ ι ω) (m : MemoryMap π τ ι ω) :
    List BusOp → MemoryMap π τ ι ω
  | [] => m
  | .busRead a :: rest => ((m.read env a).2).applyOps env rest
  | .busWrite a v :: rest => (m.write env a v).applyOps env rest

/-- The first `some` of a priority list of options (leftmost wins); the
reference shape used to state the read dispatch order. -/
def firstSome (l : List (Option Nat)) : Option Nat :=
  l.foldr (fun a b => a.or b) none

/-- Run subsystem write attempts from left to right, stopping at the first
that claims; the reference shape used to state the write dispatch order. -/
def tryWritesInOrder {S : Type} : List (S → S × Bool) → S → S × Bool
  | [], s => (s, false)
  | f :: fs, s =>
      let r := f s
      if r.2 then (r.1, true) else tryWritesInOrder fs r.1

/-- The write-attempt step of a single subsystem, lifted to the whole bus
state. -/
def ppuWriteStep (env : Env π τ ι ω) (address value : Nat)
    (m : MemoryMap π τ ι ω) : MemoryMap π τ ι ω × Bool :=
  let r := env.ppuWrite m.ppu address value
  ({ m with ppu := r.1 }, r.2)

/-- The timer write-attempt step lifted to the whole bus state. -/
def timerWriteStep (env : Env π τ ι ω) (address value : Nat)
    (m : MemoryMap π τ ι ω) : MemoryMap π τ ι ω × Bool :=
  let r := env.timerWrite m.timer address value
  ({ m with timer := r.1 }, r.2)

/-- The interrupt-controller write-attempt step lifted to the whole bus
state. -/
def intWriteStep (env : Env π τ ι ω) (address value : Nat)
    (m : MemoryMap π τ ι ω) : MemoryMap π τ ι ω × Bool :=
  let r := env.intWrite m.interrupt_handler address value
  ({ m with interrupt_handler := r.1 }, r.2)

/-- The joypad write-attempt step lifted to the whole bus state. -/
def joyWriteStep (env : Env π τ ι ω) (address value : Nat)
    (m : MemoryMap π τ ι ω) : MemoryMap π τ ι ω × Bool :=
  let r := env.joyWrite m.joypad address value
  ({ m with joypad := r.1 }, r.2)

/-- Write dispatch in the order the specification sentence states it (PPU,
then interrupt controller, then timer, then joypad), for comparison with
the source order of `MemoryMap.write_without_cycle`. -/
def MemoryMap.write_without_cycle_claimed_order (env : Env π τ ι ω)
    (m : MemoryMap π τ ι ω) (address value : Nat) : MemoryMap π τ ι ω :=
  let r := tryWritesInOrder
    [ppuWriteStep env address value, intWriteStep env address value,
     timerWriteStep env address value, joyWriteStep env address value] m
  if r.2 then r.1
  else if r.1.rom_size ≤ address then
    { r.1 with memory := r.1.memory.set address value }
  else r.1

/-- Write dispatch as a fold in the order the source actually uses (PPU,
then timer, then interrupt controller, then joypad). -/
def MemoryMap.write_without_cycle_fold_order (env : Env π τ ι ω)
    (m : MemoryMap π τ ι ω) (address value : Nat) : MemoryMap π τ ι ω :=
  let r := tryWritesInOrder
    [ppuWriteStep env address value, timerWriteStep env address value,
     intWriteStep env address value, joyWriteStep env address value] m
  if r.2 then r.1
  else if r.1.rom_size ≤ address then
    { r.1 with memory := r.1.memory.set address value }
  else r.1

/-- A subsystem environment that never claims an address, never raises an
event and keeps its state; a concrete instantiation for witnesses. -/
def trivEnv : Env Unit Unit Unit Unit :=
  { ppuRead := fun _ _ => none
    intRead := fun _ _ => none
    timerRead := fun _ _ => none
    joyRead := fun _ _ => none
    ppuWrite := fun p _ _ => (p, false)
    timerWrite := fun t _ _ => (t, false)
    intWrite := fun i _ _ => (i, false)
    joyWrite := fun j _ _ => (j, false)
    ppuMC := fun p => (p, .Normal .NoChange)
    timerMC := fun t => (t, none)
    joyMC := fun j _ => (j, [])
    intSet := fun i _ _ => i }

/-- A small concrete bus state: four flat bytes of which the first two are
ROM, DMA inactive. -/
def m0 : MemoryMap Unit Unit Unit Unit :=
  { memory := [3, 5, 8, 9]
    interrupt_handler := ()
    ppu := ⟨.Inactive, 0, 0, [], ()⟩
    timer := ()
    joypad := ()
    rom_size := 2
    rom_name := ""
    cycles := 0
    dma_progress := 0 }

/-- An environment whose timer and interrupt controller both claim every
write and count the writes they receive; it separates the two candidate
write dispatch orders. -/
def cx4Env : Env Unit Nat Nat Unit :=
  { ppuRead := fun _ _ => none
    intRead := fun _ _ => none
    timerRead := fun _ _ => none
    joyRead := fun _ _ => none
    ppuWrite := fun p _ _ => (p, false)
    timerWrite := fun t _ _ => (t + 1, true)
    intWrite := fun i _ _ => (i + 1, true)
    joyWrite := fun j _ _ => (j, false)
    ppuMC := fun p => (p, .Normal .NoChange)
    timerMC := fun t => (t, none)
    joyMC := fun j _ => (j, [])
    intSet := fun i _ _ => i }

/-- A bus state over `cx4Env` with both counters at zero. -/
def cx4Mem : MemoryMap Unit Nat Nat Unit :=
  { memory := [0]
    interrupt_handler := 0
    ppu := ⟨.Inactive, 0, 0, [], ()⟩
    timer := 0
    joypad := ()
    rom_size := 0
    rom_name := ""
    cycles := 0
    dma_progress := 0 }

/-- A bus state with an active DMA transfer two bytes into OAM: the PPU
reports position 2, the internal counter is 0, the source block starts at
flat address 0. -/
def cx8Mem : MemoryMap Unit Unit Unit Unit :=
  { memory := [9, 8]
    interrupt_handler := ()
    ppu := ⟨.Active, 2, 0, List.replicate 160 5, ()⟩
    timer := ()
    joypad := ()
    rom_size := 0
    rom_name := ""
    cycles := 0
    dma_progress := 0 }

/-- The machine-cycle step never touches the cycle counter, the flat
array, the ROM bound or the DMA progress counter. -/
theorem machine_cycle_frame (env : Env π τ ι ω) (m : MemoryMap π τ ι ω) :
    (m.machine_cycle env).cycles = m.cycles
    ∧ (m.machine_cycle env).memory = m.memory
    ∧ (m.machine_cycle env).rom_size = m.rom_size
    ∧ (m.machine_cycle env).dma_progress = m.dma_progress :=
  ⟨rfl, rfl, rfl, rfl⟩

/-- The dispatch part of a write never touches the cycle counter, the ROM
bound or the DMA progress counter. -/
theorem write_without_cycle_frame (env : Env π τ ι ω) (m : MemoryMap π τ ι ω)
    (a v : Nat) :
    (m.write_without_cycle env a v).cycles = m.cycles
    ∧ (m.write_without_cycle env a v).rom_size = m.rom_size
    ∧ (m.write_without_cycle env a v).dma_progress = m.dma_progress := by
  simp only [MemoryMap.write_without_cycle]
  repeat' split
  all_goals exact ⟨rfl, rfl, rfl⟩

/-- The DMA copy loop only writes OAM slots and the progress counter:
every other component of the bus state, and the other PPU fields, are
unchanged. -/
theorem dma_loop_frame (env : Env π τ ι ω) (k : Nat) :
    ∀ m : MemoryMap π τ ι ω, m.ppu.dma_progress - m.dma_progress ≤ k →
      (m.dma_loop env).cycles = m.cycles
      ∧ (m.dma_loop env).memory = m.memory
      ∧ (m.dma_loop env).timer = m.timer
      ∧ (m.dma_loop env).interrupt_handler = m.interrupt_handler
      ∧ (m.dma_loop env).joypad = m.joypad
      ∧ (m.dma_loop env).rom_size = m.rom_size
      ∧ (m.dma_loop env).ppu.dma = m.ppu.dma
      ∧ (m.dma_loop env).ppu.dma_progress = m.ppu.dma_progress
      ∧ (m.dma_loop env).ppu.dma_offset = m.ppu.dma_offset
      ∧ (m.dma_loop env).ppu.oam.length = m.ppu.oam.length
      ∧ (m.dma_loop env).ppu.rest = m.ppu.rest := by
  induction k with
  | zero =>
      intro m hk
      unfold MemoryMap.dma_loop
      rw [dif_neg (by omega)]
      exact ⟨rfl, rfl, rfl, rfl, rfl, rfl, rfl, rfl, rfl, rfl, rfl⟩
  | succ k ih =>
      intro m hk
      unfold MemoryMap.dma_loop
      by_cases h : m.dma_progress < m.ppu.dma_progress
      · rw [dif_pos h]
        obtain ⟨c1, c2, c3, c4, c5, c6, c7, c8, c9, c10, c11⟩ :=
          ih { m with
                ppu := { m.ppu with
                  oam := m.ppu.oam.set m.dma_progress
                    (m.read_without_cycle env
                      (m.ppu.dma_offset * 0x100 + m.dma_progress)) }
                dma_progress := m.dma_progress + 1 }
            (by show m.ppu.dma_progress - (m.dma_progress + 1) ≤ k; omega)
        refine ⟨c1, c2, c3, c4, c5, c6, c7, c8, c9, ?_, c11⟩
        rw [c10]
        exact List.length_set m.ppu.oam m.dma_progress _
      · rw [dif_neg h]
        exact ⟨rfl, rfl, rfl, rfl, rfl, rfl, rfl, rfl, rfl, rfl, rfl⟩

/-- Unfolding equation for `dma_transfer` when the DMA state is Inactive. -/
theorem dma_transfer_eq_inactive (env : Env π τ ι ω) (m : MemoryMap π τ ι ω)
    (hd : m.ppu.dma = DmaState.Inactive) : m.dma_transfer env = m := by
  unfold MemoryMap.dma_transfer
  rw [hd]

/-- Unfolding equation for `dma_transfer` when the DMA state is Starting. -/
theorem dma_transfer_eq_starting (env : Env π τ ι ω) (m : MemoryMap π τ ι ω)
    (hd : m.ppu.dma = DmaState.Starting) : m.dma_transfer env = m := by
  unfold MemoryMap.dma_transfer
  rw [hd]

/-- Unfolding equation for `dma_transfer` when the DMA state is Active. -/
theorem dma_transfer_eq_active (env : Env π τ ι ω) (m : MemoryMap π τ ι ω)
    (hd : m.ppu.dma = DmaState.Active) :
    m.dma_transfer env =
      if (m.dma_loop env).dma_progress = (m.dma_loop env).ppu.oam.length then
        { m.dma_loop env with dma_progress := 0 }
      else m.dma_loop env := by
  unfold MemoryMap.dma_transfer
  rw [hd]

/-- The DMA transfer step never touches the cycle counter, the flat array,
the timer, the interrupt controller, the joypad or the ROM bound. -/
theorem dma_transfer_frame (env : Env π τ ι ω) (m : MemoryMap π τ ι ω) :
    (m.dma_transfer env).cycles = m.cycles
    ∧ (m.dma_transfer env).memory = m.memory
    ∧ (m.dma_transfer env).timer = m.timer
    ∧ (m.dma_transfer env).interrupt_handler = m.interrupt_handler
    ∧ (m.dma_transfer env).joypad = m.joypad
    ∧ (m.dma_transfer env).rom_size = m.rom_size := by
  cases hd : m.ppu.dma with
  | Inactive =>
      rw [dma_transfer_eq_inactive env m hd]
      exact ⟨rfl, rfl, rfl, rfl, rfl, rfl⟩
  | Starting =>
      rw [dma_transfer_eq_starting env m hd]
      exact ⟨rfl, rfl, rfl, rfl, rfl, rfl⟩
  | Active =>
      rw [dma_transfer_eq_active env m hd]
      obtain ⟨c1, c2, c3, c4, c5, c6, _, _, _, _, _⟩ :=
        dma_loop_frame env (m.ppu.dma_progress - m.dma_progress) m le_rfl
      split
      · exact ⟨c1, c2, c3, c4, c5, c6⟩
      · exact ⟨c1, c2, c3, c4, c5, c6⟩

/-- One bus tick increments the wrapping cycle counter by exactly one. -/
theorem cycle_cycles (env : Env π τ ι ω) (m : MemoryMap π τ ι ω) :
    (m.cycle env).cycles = (m.cycles + 1) % 65536 := by
  unfold MemoryMap.cycle
  rw [(machine_cycle_frame env _).1, (dma_transfer_frame env _).1]

/-- One bus tick never touches the flat backing array. -/
theorem cycle_memory (env : Env π τ ι ω) (m : MemoryMap π τ ι ω) :
    (m.cycle env).memory = m.memory := by
  unfold MemoryMap.cycle
  rw [(machine_cycle_frame env _).2.1, (dma_transfer_frame env _).2.1]

/-- Cycle accounting for a sequence of ticking accesses. -/
theorem applyOps_cycles (env : Env π τ ι ω) (ops : List BusOp) :
    ∀ m : MemoryMap π τ ι ω, m.cycles < 65536 →
      (m.applyOps env ops).cycles = (m.cycles + ops.length) % 65536 := by
  induction ops with
  | nil =>
      intro m h
      show m.cycles = (m.cycles + 0) % 65536
      omega
  | cons op rest ih =>
      intro m h
      cases op with
      | busRead a =>
          have h1 : ((m.read env a).2).cycles = (m.cycles + 1) % 65536 :=
            cycle_cycles env m
          have h2 := ih ((m.read env a).2) (by rw [h1]; omega)
          show (((m.read env a).2).applyOps env rest).cycles = _
          rw [h2, h1, List.length_cons]
          omega
      | busWrite a v =>
          have h0 : (m.write_without_cycle env a v).cycles = m.cycles :=
            (write_without_cycle_frame env m a v).1
          have h1 : (m.write env a v).cycles = (m.cycles + 1) % 65536 := by
            unfold MemoryMap.write
            rw [cycle_cycles, h0]
          have h2 := ih (m.write env a v) (by rw [h1]; omega)
          show ((m.write env a v).applyOps env rest).cycles = _
          rw [h2, h1, List.length_cons]
          omega

/-- Characterization of the DMA copy loop: when the subsystems claim no
address of the source block, the loop advances the internal counter to the
PPU's reported position and fills each pending OAM slot with the flat-array
byte at `dma_offset * 0x100 + slot`. -/
theorem dma_loop_spec (env : Env π τ ι ω) (k : Nat) :
    ∀ m : MemoryMap π τ ι ω,
      m.ppu.dma_progress - m.dma_progress ≤ k →
      m.dma_progress ≤ m.ppu.dma_progress →
      m.ppu.dma_progress ≤ m.ppu.oam.length →
      (∀ p i, i < m.ppu.dma_progress →
        env.ppuRead p (m.ppu.dma_offset * 0x100 + i) = none) →
      (∀ i, i < m.ppu.dma_progress →
        env.intRead m.interrupt_handler (m.ppu.dma_offset * 0x100 + i) = none) →
      (∀ i, i < m.ppu.dma_progress →
        env.timerRead m.timer (m.ppu.dma_offset * 0x100 + i) = none) →
      (∀ i, i < m.ppu.dma_progress →
        env.joyRead m.joypad (m.ppu.dma_offset * 0x100 + i) = none) →
      (m.dma_loop env).dma_progress = m.ppu.dma_progress
      ∧ ∀ i, (m.dma_loop env).ppu.oam.getD i 0 =
          if m.dma_progress ≤ i ∧ i < m.ppu.dma_progress then
            m.memory.getD (m.ppu.dma_offset * 0x100 + i) 0
          else m.ppu.oam.getD i 0 := by
  induction k with
  | zero =>
      intro m hk h1 _ _ _ _ _
      unfold MemoryMap.dma_loop
      rw [dif_neg (by omega)]
      refine ⟨by omega, fun i => ?_⟩
      rw [if_neg (by omega)]
  | succ k ih =>
      intro m hk h1 h2 hp hi ht hj
      unfold MemoryMap.dma_loop
      by_cases h : m.dma_progress < m.ppu.dma_progress
      · rw [dif_pos h]
        have hb : m.read_without_cycle env
            (m.ppu.dma_offset * 0x100 + m.dma_progress) =
            m.memory.getD (m.ppu.dma_offset * 0x100 + m.dma_progress) 0 := by
          unfold MemoryMap.read_without_cycle
          rw [hp m.ppu m.dma_progress h, hi m.dma_progress h,
            ht m.dma_progress h, hj m.dma_progress h]
          rfl
        obtain ⟨ih1, ih2⟩ :=
          ih { m with
                ppu := { m.ppu with
                  oam := m.ppu.oam.set m.dma_progress
                    (m.read_without_cycle env
                      (m.ppu.dma_offset * 0x100 + m.dma_progress)) }
                dma_progress := m.dma_progress + 1 }
            (by show m.ppu.dma_progress - (m.dma_progress + 1) ≤ k; omega)
            (by show m.dma_progress + 1 ≤ m.ppu.dma_progress; omega)
            (by show m.ppu.dma_progress ≤ (m.ppu.oam.set _ _).length
                rw [List.length_set]; exact h2)
            (fun p i hlt => hp p i hlt)
            (fun i hlt => hi i hlt)
            (fun i hlt => ht i hlt)
            (fun i hlt => hj i hlt)
        refine ⟨ih1, fun i => ?_⟩
        rw [ih2 i]
        by_cases hcase : m.dma_progress + 1 ≤ i ∧ i < m.ppu.dma_progress
        · rw [if_pos hcase, if_pos (by omega)]
        · rw [if_neg hcase]
          by_cases heq : i = m.dma_progress
          · subst heq
            rw [if_pos (by omega)]
            rw [List.getD_eq_getElem?_getD, List.getElem?_set_self (by omega),
              hb, List.getD_eq_getElem?_getD]
            simp
          · rw [if_neg (by omega), List.getD_eq_getElem?_getD,
              List.getElem?_set_ne (by omega), List.getD_eq_getElem?_getD]
      · rw [dif_neg h]
        refine ⟨by omega, fun i => ?_⟩
        rw [if_neg (by omega)]

/-- C1: the fresh register file has the documented byte registers, flags,
SP and PC, and BC, DE, HL read back 0x0013, 0x00D8, 0x014D; but reading
the AF pair yields 0x010B, not the claimed 0x01B0, because the `AccFlag`
arm of `WordRegister::value` packs Z, N, H, C into bits 3..0 of the low
byte instead of bits 7..4. -/
theorem C1_reset_state :
    (Register.new.get .A).value = 0x01
  ∧ (Register.new.get .B).value = 0x00
  ∧ (Register.new.get .C).value = 0x13
  ∧ (Register.new.get .D).value = 0x00
  ∧ (Register.new.get .E).value = 0xD8
  ∧ (Register.new.get .H).value = 0x01
  ∧ (Register.new.get .L).value = 0x4D
  ∧ Register.new.flags = ⟨true, false, true, true⟩
  ∧ Register.new.sp.value = 0xFFFE
  ∧ Register.new.pc.value = 0x0100
  ∧ Register.new.bc.value = 0x0013
  ∧ Register.new.de.value = 0x00D8
  ∧ Register.new.hl.value = 0x014D
  ∧ Register.new.af.value = 0x010B
  ∧ (0x010B : Nat) ≠ 0x01B0 := by decide

/-- C2: a pair write goes low half, callback, high half (the callback is
observably invoked, and the BC pair round-trips), but writing 0x01B0 to AF
reads back 0x010B, not 0x01B0: the write path unpacks the flags from bits
7..4 of the low byte while the read path repacks them into bits 3..0. -/
theorem C2_pair_write_roundtrip :
    ((Register.new.set_word_register_with_callback 0x01B0 Register.new.af
        (fun u => u) ()).1).af.value = 0x010B
  ∧ (0x010B : Nat) ≠ 0x01B0
  ∧ ((Register.new.set_word_register_with_callback 0x01B0 Register.new.af
        (fun n => n + 1) (0 : Nat)).2) = 1
  ∧ ((Register.new.set_word_register_with_callback 0xABCD Register.new.bc
        (fun u => u) ()).1).bc.value = 0xABCD := by decide

/-- C3: packing flags with only H set gives 0x20 (low nibble zero), and
`FlagRegister::set` restores them; but `Register::set_flag` unpacks 0x20
into the carry flag instead of the half-carry flag, so the round-trip
through the `set_flag` path fails whenever H and C differ. -/
theorem C3_flag_pack_roundtrip :
    (FlagRegister.mk false false true false).value = 0x20
  ∧ FlagRegister.set ⟨false, false, false, false⟩
      (FlagRegister.mk false false true false).value
      = ⟨false, false, true, false⟩
  ∧ (Register.new.set_flag (FlagRegister.mk false false true false).value).flags
      = ⟨false, false, false, true⟩
  ∧ (⟨false, false, false, true⟩ : FlagRegister) ≠ ⟨false, false, true, false⟩ := by
  decide

/-- C5 (counterexample): the unconditional RET costs 4 cycles for either
branch argument, which is not the 5-cycle taken cost of RET cc, so the
claim that every unconditional form returns the taken cost is false. -/
theorem C5_counterexample :
    Command.cycles .RET true = some 4
  ∧ Command.cycles .RET false = some 4
  ∧ Command.cycles (.RET_CC .Z) true = some 5
  ∧ Command.cycles .RET false ≠ Command.cycles (.RET_CC .Z) true := by decide

/-- C5 (amended): JR cc is 3 taken / 2 untaken, JP cc 4/3, RET cc 5/2,
CALL cc 6/3; the unconditional JR, JP and CALL always return the taken
cost (3, 4, 6), while the unconditional RET returns 4, one machine cycle
less than the taken cost of RET cc. -/
theorem C5_branch_cycles (cc : ConditionCode) (i : Int) (u : Nat) (br : Bool) :
    Command.cycles (.JR_CC_I8 cc i) br = some (if br then 3 else 2)
  ∧ Command.cycles (.JP_CC_U16 cc u) br = some (if br then 4 else 3)
  ∧ Command.cycles (.RET_CC cc) br = some (if br then 5 else 2)
  ∧ Command.cycles (.CALL_CC_U16 cc u) br = some (if br then 6 else 3)
  ∧ Command.cycles (.JR_I8 i) br = some 3
  ∧ Command.cycles (.JP_U16 u) br = some 4
  ∧ Command.cycles (.CALL_U16 u) br = some 6
  ∧ Command.cycles .RET br = some 4 := by
  cases br <;> exact ⟨rfl, rfl, rfl, rfl, rfl, rfl, rfl, rfl⟩

/-- C6 (counterexample): `size` of BIT with a Byte operand returns 2
instead of failing, so the claim that both `size` and `cycles` panic on a
Byte operand to BIT/SLA/SRA/SRL is false. -/
theorem C6_counterexample :
    Command.size (.BIT_U3 ⟨0⟩ (.OpByte 0)) = some 2
  ∧ Command.size (.BIT_U3 ⟨0⟩ (.OpByte 0)) ≠ none := by decide

/-- C6 (amended): for a Byte operand to BIT/SLA/SRA/SRL only `cycles`
panics while `size` returns 2; for a rotate whose shortform flag is true
with an operand other than register A, both `size` and `cycles` panic. -/
theorem C6_illegal_operands (b : Bit) (n : Nat) (br : Bool)
    (op : InstructionOperand)
    (hop : op ≠ InstructionOperand.OpRegister RegisterId.A) :
    Command.cycles (.BIT_U3 b (.OpByte n)) br = none
  ∧ Command.cycles (.SLA (.OpByte n)) br = none
  ∧ Command.cycles (.SRA (.OpByte n)) br = none
  ∧ Command.cycles (.SRL (.OpByte n)) br = none
  ∧ Command.size (.BIT_U3 b (.OpByte n)) = some 2
  ∧ Command.size (.SLA (.OpByte n)) = some 2
  ∧ Command.size (.SRA (.OpByte n)) = some 2
  ∧ Command.size (.SRL (.OpByte n)) = some 2
  ∧ Command.size (.RL op true) = none
  ∧ Command.size (.RLC op true) = none
  ∧ Command.size (.RR op true) = none
  ∧ Command.size (.RRC op true) = none
  ∧ Command.cycles (.RL op true) br = none
  ∧ Command.cycles (.RLC op true) br = none
  ∧ Command.cycles (.RR op true) br = none
  ∧ Command.cycles (.RRC op true) br = none := by
  rcases op with id | k | _
  · cases id
    · exact absurd rfl hop
    all_goals exact ⟨rfl, rfl, rfl, rfl, rfl, rfl, rfl, rfl, rfl, rfl, rfl,
      rfl, rfl, rfl, rfl, rfl⟩
  · exact ⟨rfl, rfl, rfl, rfl, rfl, rfl, rfl, rfl, rfl, rfl, rfl, rfl, rfl,
      rfl, rfl, rfl⟩
  · exact ⟨rfl, rfl, rfl, rfl, rfl, rfl, rfl, rfl, rfl, rfl, rfl, rfl, rfl,
      rfl, rfl, rfl⟩

/-- Witness for C6: the amended statement at the HL-indirect operand. -/
theorem C6_illegal_operands_witness :
    Command.cycles (.BIT_U3 ⟨0⟩ (.OpByte 0)) false = none
  ∧ Command.cycles (.SLA (.OpByte 0)) false = none
  ∧ Command.cycles (.SRA (.OpByte 0)) false = none
  ∧ Command.cycles (.SRL (.OpByte 0)) false = none
  ∧ Command.size (.BIT_U3 ⟨0⟩ (.OpByte 0)) = some 2
  ∧ Command.size (.SLA (.OpByte 0)) = some 2
  ∧ Command.size (.SRA (.OpByte 0)) = some 2
  ∧ Command.size (.SRL (.OpByte 0)) = some 2
  ∧ Command.size (.RL .OpHL true) = none
  ∧ Command.size (.RLC .OpHL true) = none
  ∧ Command.size (.RR .OpHL true) = none
  ∧ Command.size (.RRC .OpHL true) = none
  ∧ Command.cycles (.RL .OpHL true) false = none
  ∧ Command.cycles (.RLC .OpHL true) false = none
  ∧ Command.cycles (.RR .OpHL true) false = none
  ∧ Command.cycles (.RRC .OpHL true) false = none :=
  C6_illegal_operands ⟨0⟩ 0 false .OpHL (by decide)

/-- C10: writing 0x1234 to the stack-pointer slot stores
`StackPointer 0x1234`; but writing to the program-counter slot also stores
a `StackPointer` variant (the source assigns `StackPointer(value)` to the
`pc` field), not a `ProgramCounter` one; the numeric value still reads
back as 0x1234 in both cases. -/
theorem C10_pc_variant :
    ((Register.new.set_word_register 0x1234 Register.new.pc ()).1).pc
        = WordRegister.StackPointer 0x1234
  ∧ ((Register.new.set_word_register 0x1234 Register.new.pc ()).1).pc.value
        = 0x1234
  ∧ ((Register.new.set_word_register 0x1234 Register.new.sp ()).1).sp
        = WordRegister.StackPointer 0x1234
  ∧ ((Register.new.set_word_register 0x1234 Register.new.sp ()).1).sp.value
        = 0x1234
  ∧ WordRegister.StackPointer 0x1234 ≠ WordRegister.ProgramCounter 0x1234 := by
  decide

/-- C4 (counterexample): with an environment in which both the timer and
the interrupt controller would claim the write, the source dispatch lets
the timer claim it and never consults the interrupt controller, while the
claimed order (PPU, interrupt controller, timer, joypad) would let the
interrupt controller claim it; so the claim's write order is false. -/
theorem C4_counterexample :
    (cx4Mem.write_without_cycle cx4Env 0 0).timer = 1
  ∧ (cx4Mem.write_without_cycle cx4Env 0 0).interrupt_handler = 0
  ∧ (cx4Mem.write_without_cycle_claimed_order cx4Env 0 0).interrupt_handler = 1
  ∧ (cx4Mem.write_without_cycle_claimed_order cx4Env 0 0).timer = 0
  ∧ (cx4Mem.write_without_cycle cx4Env 0 0).interrupt_handler
      ≠ (cx4Mem.write_without_cycle_claimed_order cx4Env 0 0).interrupt_handler := by
  decide

/-- C4 (amended): on read the dispatch priority is PPU, then interrupt
controller, then timer, then joypad, then the flat array; on write the
consultation order is PPU, then timer, then interrupt controller, then
joypad (timer and interrupt controller in the opposite order of the read
path), short-circuiting at the first claim, and the flat-array store
happens only when no subsystem claims the address and the address is at or
above `rom_size`. -/
theorem C4_dispatch_order (env : Env π τ ι ω) (m : MemoryMap π τ ι ω)
    (a v : Nat) :
    m.read_without_cycle env a =
      (firstSome [env.ppuRead m.ppu a, env.intRead m.interrupt_handler a,
        env.timerRead m.timer a, env.joyRead m.joypad a]).getD
        (m.memory.getD a 0)
  ∧ m.write_without_cycle env a v = m.write_without_cycle_fold_order env a v := by
  constructor
  · unfold MemoryMap.read_without_cycle firstSome
    cases env.ppuRead m.ppu a <;>
      cases env.intRead m.interrupt_handler a <;>
        cases env.timerRead m.timer a <;>
          cases env.joyRead m.joypad a <;> rfl
  · by_cases h1 : (env.ppuWrite m.ppu a v).2 = true <;>
      by_cases h2 : (env.timerWrite m.timer a v).2 = true <;>
        by_cases h3 : (env.intWrite m.interrupt_handler a v).2 = true <;>
          by_cases h4 : (env.joyWrite m.joypad a v).2 = true <;>
            simp [MemoryMap.write_without_cycle,
              MemoryMap.write_without_cycle_fold_order, tryWritesInOrder,
              ppuWriteStep, timerWriteStep, intWriteStep, joyWriteStep,
              h1, h2, h3, h4]

/-- C7: every ticking bus access increments the 16-bit machine-cycle
counter by exactly one, so after a sequence of N reads and writes it has
advanced by N modulo 2^16; and the DMA transfer step, whose copies go
through the no-tick read path, leaves the counter unchanged. -/
theorem C7_tick_accounting (env : Env π τ ι ω) (m : MemoryMap π τ ι ω)
    (ops : List BusOp) (h : m.cycles < 65536) :
    (m.applyOps env ops).cycles = (m.cycles + ops.length) % 65536
  ∧ (m.dma_transfer env).cycles = m.cycles :=
  ⟨applyOps_cycles env ops m h, (dma_transfer_frame env m).1⟩

/-- Witness for C7: three ticking accesses from a zeroed counter leave the
counter at 3, and the DMA step does not move it. -/
theorem C7_tick_accounting_witness :
    (m0.applyOps trivEnv [.busRead 0, .busWrite 1 7, .busRead 2]).cycles = 3
  ∧ (m0.dma_transfer trivEnv).cycles = 0 := by
  have h := C7_tick_accounting trivEnv m0 [.busRead 0, .busWrite 1 7, .busRead 2]
    (by decide)
  exact ⟨h.1, h.2⟩

/-- C8: while the DMA state is Active, a transfer step copies the bytes at
`dma_offset * 0x100 + i` of the flat array (the subsystems claiming none
of the source addresses) into OAM slot i until the internal counter
reaches the PPU's reported position, and resets the counter to 0 when it
reaches 0xA0; while the state is Inactive or Starting the step changes
nothing. -/
theorem C8_dma_transfer_step (env : Env π τ ι ω) (m : MemoryMap π τ ι ω) :
    ((m.ppu.dma = DmaState.Inactive ∨ m.ppu.dma = DmaState.Starting) →
      m.dma_transfer env = m)
  ∧ (m.ppu.dma = DmaState.Active →
      m.dma_progress ≤ m.ppu.dma_progress →
      m.ppu.dma_progress ≤ m.ppu.oam.length →
      m.ppu.oam.length = 0xA0 →
      (∀ p i, i < m.ppu.dma_progress →
        env.ppuRead p (m.ppu.dma_offset * 0x100 + i) = none) →
      (∀ i, i < m.ppu.dma_progress →
        env.intRead m.interrupt_handler (m.ppu.dma_offset * 0x100 + i) = none) →
      (∀ i, i < m.ppu.dma_progress →
        env.timerRead m.timer (m.ppu.dma_offset * 0x100 + i) = none) →
      (∀ i, i < m.ppu.dma_progress →
        env.joyRead m.joypad (m.ppu.dma_offset * 0x100 + i) = none) →
      (m.dma_transfer env).dma_progress =
        (if m.ppu.dma_progress = 0xA0 then 0 else m.ppu.dma_progress)
      ∧ ∀ i, (m.dma_transfer env).ppu.oam.getD i 0 =
          if m.dma_progress ≤ i ∧ i < m.ppu.dma_progress then
            m.memory.getD (m.ppu.dma_offset * 0x100 + i) 0
          else m.ppu.oam.getD i 0) := by
  constructor
  · rintro (hd | hd)
    · exact dma_transfer_eq_inactive env m hd
    · exact dma_transfer_eq_starting env m hd
  · intro hd hle hlen hsz hp hi ht hj
    obtain ⟨s1, s2⟩ := dma_loop_spec env (m.ppu.dma_progress - m.dma_progress) m
      le_rfl hle hlen hp hi ht hj
    obtain ⟨_, _, _, _, _, _, _, _, _, flen, _⟩ :=
      dma_loop_frame env (m.ppu.dma_progress - m.dma_progress) m le_rfl
    rw [dma_transfer_eq_active env m hd]
    by_cases hfull : m.ppu.dma_progress = 0xA0
    · rw [if_pos (by rw [s1, flen, hsz]; exact hfull)]
      constructor
      · rw [if_pos hfull]
      · exact s2
    · rw [if_neg (fun hcon => hfull (by rw [s1, flen, hsz] at hcon; exact hcon))]
      constructor
      · rw [if_neg hfull]; exact s1
      · exact s2

set_option maxRecDepth 4000 in
/-- Witness for C8: an active transfer with the PPU two bytes in copies
flat bytes 9 and 8 into OAM slots 0 and 1, leaves slot 2 alone, and moves
the internal counter to 2 (not resetting, since 2 is short of 0xA0). -/
theorem C8_dma_transfer_step_witness :
    (cx8Mem.dma_transfer trivEnv).dma_progress = 2
  ∧ (cx8Mem.dma_transfer trivEnv).ppu.oam.getD 0 0 = 9
  ∧ (cx8Mem.dma_transfer trivEnv).ppu.oam.getD 1 0 = 8
  ∧ (cx8Mem.dma_transfer trivEnv).ppu.oam.getD 2 0 = 5 := by
  have h := (C8_dma_transfer_step trivEnv cx8Mem).2 rfl (by decide) (by decide)
    (by decide) (fun p i _ => rfl) (fun i _ => rfl) (fun i _ => rfl)
    (fun i _ => rfl)
  exact ⟨h.1, h.2 0, h.2 1, h.2 2⟩

/-- C9: a ticking bus write to an address below `rom_size` that no
subsystem claims leaves the flat backing array unchanged, and a subsequent
ticking read of that address still returns the ROM byte. -/
theorem C9_rom_write_dropped (env : Env π τ ι ω) (m : MemoryMap π τ ι ω)
    (a v : Nat) (hrom : a < m.rom_size)
    (hpw : ∀ p, (env.ppuWrite p a v).2 = false)
    (htw : ∀ t, (env.timerWrite t a v).2 = false)
    (hiw : ∀ i, (env.intWrite i a v).2 = false)
    (hjw : ∀ j, (env.joyWrite j a v).2 = false)
    (hpr : ∀ p, env.ppuRead p a = none)
    (hir : ∀ i, env.intRead i a = none)
    (htr : ∀ t, env.timerRead t a = none)
    (hjr : ∀ j, env.joyRead j a = none) :
    (m.write env a v).memory = m.memory
  ∧ ((m.write env a v).read env a).1 = m.memory.getD a 0 := by
  have hw : (m.write_without_cycle env a v).memory = m.memory := by
    simp [MemoryMap.write_without_cycle, hpw, htw, hiw, hjw, Nat.not_le.mpr hrom]
  have h1 : (m.write env a v).memory = m.memory := by
    unfold MemoryMap.write
    rw [cycle_memory, hw]
  refine ⟨h1, ?_⟩
  show (m.write env a v).read_without_cycle env a = m.memory.getD a 0
  unfold MemoryMap.read_without_cycle
  rw [hpr, hir, htr, hjr, h1]
  rfl

/-- Witness for C9: writing 7 to ROM address 1 of the small bus leaves the
array [3, 5, 8, 9] intact and reading address 1 back yields 5. -/
theorem C9_rom_write_dropped_witness :
    (m0.write trivEnv 1 7).memory = m0.memory
  ∧ ((m0.write trivEnv 1 7).read trivEnv 1).1 = 5 := by
  have h := C9_rom_write_dropped trivEnv m0 1 7 (by decide)
    (fun p => rfl) (fun t => rfl) (fun i => rfl) (fun j => rfl)
    (fun p => rfl) (fun i => rfl) (fun t => rfl) (fun j => rfl)
  exact ⟨h.1, h.2⟩

end Feboy
